import Mathlib

/-!
Verification development for the single-file C++ browser game-loop server
(`src/main.cpp`).  The C++ program is shallowly embedded: pure functions
become Lean functions, the global `canvas`/`hero` singletons become an
explicit `World` record threaded through the request pipeline, machine
`int` arithmetic that can overflow is modelled with explicit two's
complement wraparound on `Int`, `float` positions are modelled with exact
rational arithmetic (every value the program manipulates here is a small
multiple of 8, exactly representable in binary32), and C++ undefined
behaviour / uncaught exceptions surface as `Option`/`Except` failures.
-/

set_option linter.unusedVariables false

/-- Two's complement wraparound of a 32-bit signed `int`, used where the C++
source can overflow (`x + w`, `min(x + w, WIDTH) - cx`, `cx + cw`).  Signed
overflow is UB in C++; we model the usual wraparound behaviour. -/
def wrap32 (z : Int) : Int := (z + 2 ^ 31) % 2 ^ 32 - 2 ^ 31

/-- `Color` (main.cpp:52-61): three 8-bit channels, alpha fixed at 255.
The constructor stores the bytes `r, g, b, 255` into the packed `uint32_t`. -/
structure Color where
  r : Nat
  g : Nat
  b : Nat

/-- Byte `k` (0-3) of the packed color: `r, g, b, 255`. -/
def Color.byte (c : Color) (k : Int) : Nat :=
  if k = 0 then c.r else if k = 1 then c.g else if k = 2 then c.b else 255

/-- The pixel buffer (main.cpp:63-94).  The C++ `std::vector<uint8_t>` of
size `WIDTH * HEIGHT * DEPTH = 262144` is modelled as a total byte store
indexed by `Int`; only indices `0..262143` are ever read by `toString`. -/
structure Canvas where
  data : Int → Nat

/-- The iteration space of `Canvas::drawRect` (main.cpp:71-81): the clamped
bounds `cx, cy, cw, ch` and the row-major double loop over `(xi, yi)`.
`std::clamp(x, 0, WIDTH)` is `min (max x 0) 256`; the sums `x + w`,
`min(x + w, WIDTH) - cx` and the loop bound `cx + cw` go through `wrap32`
because they can overflow a 32-bit `int`. -/
def drawRectPixels (x y w h : Int) : List (Int × Int) :=
  let cx := min (max x 0) 256
  let cy := min (max y 0) 256
  let cw := wrap32 (min (wrap32 (x + w)) 256 - cx)
  let ch := wrap32 (min (wrap32 (y + h)) 256 - cy)
  (List.range (wrap32 (cy + ch) - cy).toNat).flatMap fun j =>
    (List.range (wrap32 (cx + cw) - cx).toNat).map fun i =>
      (cx + (i : Int), cy + (j : Int))

/-- `Canvas::setPixel` (main.cpp:68-70): stores the packed color at byte
offset `(x + y * WIDTH) * DEPTH`, i.e. writes the four bytes
`r, g, b, 255` at offsets `base, base+1, base+2, base+3`. -/
def Canvas.setPixel (c : Canvas) (x y : Int) (col : Color) : Canvas :=
  ⟨fun q =>
    if q = (x + y * 256) * 4 then col.r
    else if q = (x + y * 256) * 4 + 1 then col.g
    else if q = (x + y * 256) * 4 + 2 then col.b
    else if q = (x + y * 256) * 4 + 3 then 255
    else c.data q⟩

/-- `Canvas::drawRect` (main.cpp:71-81): `setPixel` on every `(xi, yi)` of
the clamped double loop, in source iteration order. -/
def Canvas.drawRect (c : Canvas) (x y w h : Int) (col : Color) : Canvas :=
  (drawRectPixels x y w h).foldl (fun acc p => acc.setPixel p.1 p.2 col) c

/-- The byte offsets written by one `drawRect` call (each `setPixel` writes
the four bytes of one `uint32_t`). -/
def drawRectOffsets (x y w h : Int) : List Int :=
  (drawRectPixels x y w h).flatMap fun p =>
    [(p.1 + p.2 * 256) * 4, (p.1 + p.2 * 256) * 4 + 1,
     (p.1 + p.2 * 256) * 4 + 2, (p.1 + p.2 * 256) * 4 + 3]

/-- `Canvas::clear` (main.cpp:82-84). -/
def Canvas.clear (c : Canvas) : Canvas := c.drawRect 0 0 256 256 ⟨0, 0, 0⟩

/-- `std::to_string` on an unsigned byte / size value: decimal digits,
most significant first. -/
def natToChars (n : Nat) : List Char := Nat.toDigits 10 n

/-- The comma separation of the `Canvas::toString` loop (main.cpp:85-92):
a comma is appended after every element except the last. -/
def joinComma : List (List Char) → List Char
  | [] => []
  | [s] => s
  | s :: t :: rest => s ++ ',' :: joinComma (t :: rest)

/-- `Canvas::toString` (main.cpp:85-92): `"["`, then every byte of the
backing store (size `WIDTH * HEIGHT * DEPTH`) rendered in decimal and
comma-separated, then `"]"`. -/
def Canvas.toString (c : Canvas) : List Char :=
  '[' :: joinComma ((List.range (256 * 256 * 4)).map fun i : Nat =>
    natToChars (c.data (i : Nat))) ++ [']']

/-- `KeyCode` (main.cpp:41-46). -/
inductive KeyCode
  | ArrowLeft
  | ArrowUp
  | ArrowRight
  | ArrowDown

/-- Numeric value of a `KeyCode`. -/
def KeyCode.val : KeyCode → Nat
  | .ArrowLeft => 37
  | .ArrowUp => 38
  | .ArrowRight => 39
  | .ArrowDown => 40

/-- `isKeyDown` (main.cpp:48-50): `requestBody[int(keyCode)] == '1'`.
`std::string_view::operator[]` has no bounds check: reading at or past the
body's length is undefined behaviour, modelled as `none`. -/
def isKeyDown (requestBody : List Char) (keyCode : KeyCode) : Option Bool :=
  (requestBody.get? keyCode.val).map fun c => c == '1'

/-- `Hero` (main.cpp:98-112).  The `float` position is modelled exactly by
rationals: every coordinate the program produces is `128 ± 8k`, and those
stay exactly representable in binary32 over any realistic horizon. -/
structure Hero where
  x_ : ℚ
  y_ : ℚ

/-- C++ `float → int` conversion: truncation toward zero. -/
def truncQ (q : ℚ) : Int := if 0 ≤ q then ⌊q⌋ else ⌈q⌉

/-- `Hero::update` (main.cpp:99-105): speed 8.0 per tick; left/up/right/down
adjust `x_`/`y_` in that order.  Any out-of-range key read is UB (`none`). -/
def Hero.update (h : Hero) (requestBody : List Char) : Option Hero :=
  match isKeyDown requestBody .ArrowLeft, isKeyDown requestBody .ArrowUp,
      isKeyDown requestBody .ArrowRight, isKeyDown requestBody .ArrowDown with
  | some l, some u, some r, some d =>
    let x1 := if l then h.x_ - 8 else h.x_
    let y1 := if u then h.y_ - 8 else h.y_
    let x2 := if r then x1 + 8 else x1
    let y2 := if d then y1 + 8 else y1
    some ⟨x2, y2⟩
  | _, _, _, _ => none

/-- The four arguments `Hero::draw` (main.cpp:106-109) passes to
`drawRect`: `x_ - r, y_ - r, 2 r, 2 r` with `r = 4.0`, each converted
from `float` to `int`. -/
def Hero.drawArgs (h : Hero) : Int × Int × Int × Int :=
  (truncQ (h.x_ - 4), truncQ (h.y_ - 4), truncQ (2 * 4), truncQ (2 * 4))

/-- `Hero::draw` (main.cpp:106-109): an 8 by 8 red square around the
position, drawn through the clamping `drawRect`. -/
def Hero.draw (h : Hero) (c : Canvas) : Canvas :=
  c.drawRect h.drawArgs.1 h.drawArgs.2.1 h.drawArgs.2.2.1 h.drawArgs.2.2.2
    ⟨255, 0, 0⟩

/-- The two process-wide singletons `canvas` and `hero` (main.cpp:96,114),
made explicit as a record threaded through the request pipeline. -/
structure World where
  canvas : Canvas
  hero : Hero

/-- The static page payload `baseHTML` (main.cpp:21-39), reproduced
byte for byte. -/
def baseHTML : List Char :=
  ("\n<!DOCTYPE html>\n<canvas width=\"256\" height=\"256\"></canvas>\n<script>\n  const keys = Array(256).fill(0);\n  onkeydown = (e) => keys[e.keyCode] = 1;\n  onkeyup = (e) => keys[e.keyCode] = 0;\n  onload = async () => \x7b\n    while (true) \x7b\n      const res = await fetch(\"/\", \x7b method: \"POST\", body: keys.join(\"\") \x7d);\n      const json = await res.json();\n      const canvas = document.querySelector(\"canvas\");\n      const ctx = canvas.getContext(\"2d\");\n      const imageData = new ImageData(new Uint8ClampedArray(json), 256);\n      ctx.putImageData(imageData, 0, 0);\n    \x7d\n  \x7d;\n</script>\n").toList

/-- `update` (main.cpp:116-121): advance the hero from the key-state body,
clear the canvas, redraw the hero, serialize the canvas. -/
def updateWorld (w : World) (requestBody : List Char) :
    Option (World × List Char) :=
  (w.hero.update requestBody).map fun hero' =>
    let canvas' := hero'.draw w.canvas.clear
    (⟨canvas', hero'⟩, canvas'.toString)

/-- First index of `pat` in `s` (`std::string_view::find`), `none` for
`npos`. -/
def findSub (pat : List Char) : List Char → Option Nat
  | [] => if pat.isPrefixOf [] then some 0 else none
  | c :: t =>
    if pat.isPrefixOf (c :: t) then some 0
    else (findSub pat t).map (· + 1)

/-- `getRequestLine` (main.cpp:123-125): `request.substr(0, request.find("\r\n"))`;
when there is no CRLF, `substr(0, npos)` is the whole request. -/
def getRequestLine (request : List Char) : List Char :=
  match findSub (("\r\n").toList) request with
  | some n => request.take n
  | none => request

/-- `getRequestBody` (main.cpp:127-130).  For a non-`POST` request line the
body is empty.  Otherwise the body is `request.substr(request.find("\r\n\r\n") + 4)`.
When the separator is missing, `find` returns `npos = 2^64 - 1` and
`npos + 4` wraps around to `3` in `size_t`, so the C++ takes `substr(3)`
(well defined because a `POST`-prefixed request has at least 4 bytes). -/
def getRequestBody (request : List Char) : List Char :=
  if ("POST").toList.isPrefixOf (getRequestLine request) then
    match findSub (("\r\n\r\n").toList) request with
    | some n => request.drop (n + 4)
    | none => request.drop 3
  else []

/-- Modelled from the spec: `body`: for requests whose line begins with
`POST`, everything after the first CRLF-CRLF (header/body separator); for
anything else, an empty body.  (Reading: when no CRLF-CRLF separator
exists, there are no bytes after it, so the body is empty.)  Used only to
compare the spec's description of `getRequestBody` with the code. -/
def getRequestBodySpec (request : List Char) : List Char :=
  if ("POST").toList.isPrefixOf (getRequestLine request) then
    match findSub (("\r\n\r\n").toList) request with
    | some n => request.drop (n + 4)
    | none => []
  else []

/-- `createResponseBody` (main.cpp:132-142): `GET / ` prefix serves the
static page, `POST / ` prefix advances the simulation, anything else
yields an empty body. -/
def createResponseBody (w : World) (request : List Char) :
    Option (World × List Char) :=
  if ("GET / ").toList.isPrefixOf (getRequestLine request) then
    some (w, baseHTML)
  else if ("POST / ").toList.isPrefixOf (getRequestLine request) then
    updateWorld w (getRequestBody request)
  else some (w, [])

/-- `createResponseHeader` (main.cpp:144-150): concatenation of the three
header lines with `std::to_string(responseBodySize)` spliced in. -/
def createResponseHeader (responseBodySize : Nat) : List Char :=
  ("HTTP/1.1 200 OK\r\n").toList ++ ("Content-Type: text/html\r\n").toList ++
    ("Content-Length: ").toList ++ natToChars responseBodySize ++
    ("\r\n").toList

/-- `createResponse` (main.cpp:152-155): header, blank line, body. -/
def createResponse (w : World) (request : List Char) :
    Option (World × List Char) :=
  (createResponseBody w request).map fun p =>
    (p.1, createResponseHeader p.2.length ++ ("\r\n").toList ++ p.2)

/-- Modelled from the spec: the exact response byte string
`HTTP/1.1 200 OK\r\nContent-Type: text/html\r\nContent-Length: <n>\r\n\r\n<body>`
with `<n>` the exact byte length of the body.  Used only to compare the
spec's framing contract with `createResponse`. -/
def specResponse (body : List Char) : List Char :=
  ("HTTP/1.1 200 OK\r\nContent-Type: text/html\r\nContent-Length: ").toList ++
    natToChars body.length ++ ("\r\n\r\n").toList ++ body

/-- Result of one `recv` call (main.cpp:192): an error indicator (`-1`),
a zero-byte read (peer shutdown), or `N > 0` bytes of request data. -/
inductive ReadResult
  | err
  | closed
  | data (request : List Char)

/-- `runReceiveSendLoop` (main.cpp:187-208) over a trace of `recv`
results, returning the final world and the responses sent, or an
uncaught-exception outcome.  A `-1` read hits `buf.resize(readSize)`
(main.cpp:193) *before* the `readSize == -1` check: `resize((size_t)-1)`
throws `std::length_error`, which nothing catches, so the whole process
terminates (`Except.error`).  A 0 read logs and breaks.  The UB of a
too-short `POST` body inside `createResponse` also surfaces as `error`. -/
def runReceiveSendLoop (w : World) :
    List ReadResult → Except Unit (World × List (List Char))
  | [] => .ok (w, [])
  | .err :: _ => .error ()
  | .closed :: _ => .ok (w, [])
  | .data request :: rest =>
    match createResponse w request with
    | none => .error ()
    | some (w', response) =>
      match runReceiveSendLoop w' rest with
      | .error e => .error e
      | .ok (w'', responses) => .ok (w'', response :: responses)

/-- `runConnectionLoop` (main.cpp:210-220) over a list of accepted
connections, each given by its trace of `recv` results.  An uncaught
exception in a session propagates and kills the process, so no later
connection is served. -/
def runConnectionLoop (w : World) :
    List (List ReadResult) → Except Unit (World × List (List (List Char)))
  | [] => .ok (w, [])
  | sess :: rest =>
    match runReceiveSendLoop w sess with
    | .error e => .error e
    | .ok (w', responses) =>
      match runConnectionLoop w' rest with
      | .error e => .error e
      | .ok (w'', out) => .ok (w'', responses :: out)

/-- Timing skeleton of `runReceiveSendLoop` (main.cpp:187-208), in
milliseconds.  Each event carries the duration of the blocking `recv`
plus `createResponse`; `std::this_thread::sleep_until(nextSendTimePoint)`
is `max`; then `send` happens and `nextSendTimePoint += 100ms`.  The
output is the list of `(deadline, send instant)` pairs, one per response.
An error or shutdown read breaks out before any send. -/
def runTimedLoop : Nat → Nat → List (Nat × ReadResult) → List (Nat × Nat)
  | _, _, [] => []
  | _, _, (_, ReadResult.err) :: _ => []
  | _, _, (_, ReadResult.closed) :: _ => []
  | now, nextSend, (dur, ReadResult.data _) :: rest =>
    (nextSend, max (now + dur) nextSend) ::
      runTimedLoop (max (now + dur) nextSend) (nextSend + 100) rest

/-- The canvas at startup (main.cpp:67): `resize` value-initializes all
`WIDTH * HEIGHT * DEPTH` bytes to zero. -/
def initCanvas : Canvas := ⟨fun _ => 0⟩

/-- The hero at startup (main.cpp:110-111): `0.5f * 256` on both axes. -/
def initHero : Hero := ⟨(1 / 2 : ℚ) * 256, (1 / 2 : ℚ) * 256⟩

/-- The process-wide state at startup. -/
def initWorld : World := ⟨initCanvas, initHero⟩

/-- `wrap32` lands in the 32-bit signed range. -/
theorem wrap32_mem (z : Int) : -2 ^ 31 ≤ wrap32 z ∧ wrap32 z < 2 ^ 31 := by
  simp only [wrap32]
  omega

/-- `wrap32` is the identity on the 32-bit signed range. -/
theorem wrap32_eq_self (z : Int) (h1 : -2 ^ 31 ≤ z) (h2 : z < 2 ^ 31) :
    wrap32 z = z := by
  simp only [wrap32]
  omega

/-- The loop bound `cx + cw` of `drawRect`, with both wraparounds applied,
collapses back to the clamped upper edge `m = min (wrap32 (x + w)) 256`. -/
theorem wrap32_add_wrap32_sub (c m : Int) (h1 : -2 ^ 31 ≤ m) (h2 : m < 2 ^ 31) :
    wrap32 (c + wrap32 (m - c)) = m := by
  simp only [wrap32]
  omega

/-- Every pixel enumerated by the clamped `drawRect` loop lies in
`[0,256) × [0,256)`.  Shared workhorse for drawing-safety facts. -/
theorem drawRectPixels_bounds (x y w h : Int) (p : Int × Int)
    (hp : p ∈ drawRectPixels x y w h) :
    0 ≤ p.1 ∧ p.1 < 256 ∧ 0 ≤ p.2 ∧ p.2 < 256 := by
  have hA := wrap32_mem (x + w)
  have hB := wrap32_mem (y + h)
  have ex : wrap32 (min (max x 0) 256 +
      wrap32 (min (wrap32 (x + w)) 256 - min (max x 0) 256)) =
      min (wrap32 (x + w)) 256 :=
    wrap32_add_wrap32_sub _ _ (by omega) (by omega)
  have ey : wrap32 (min (max y 0) 256 +
      wrap32 (min (wrap32 (y + h)) 256 - min (max y 0) 256)) =
      min (wrap32 (y + h)) 256 :=
    wrap32_add_wrap32_sub _ _ (by omega) (by omega)
  simp [drawRectPixels] at hp
  rw [ex, ey] at hp
  obtain ⟨j, hj, _, ⟨i, hi, rfl⟩, hpe⟩ := hp
  cases hpe
  dsimp only
  refine ⟨by omega, by omega, by omega, by omega⟩

/-- A rectangle whose true extent misses `[0,256) × [0,256)` entirely makes
the clamped loop empty.  The range hypotheses say that `x + w` and `y + h`
do not overflow a 32-bit `int` (they always hold for the rectangles the
program itself draws). -/
theorem drawRectPixels_outside (x y w h : Int)
    (hxl : -2 ^ 31 ≤ x + w) (hxu : x + w < 2 ^ 31)
    (hyl : -2 ^ 31 ≤ y + h) (hyu : y + h < 2 ^ 31)
    (hout : 256 ≤ x ∨ x + w ≤ 0 ∨ 256 ≤ y ∨ y + h ≤ 0) :
    drawRectPixels x y w h = [] := by
  have hA := wrap32_mem (x + w)
  have hB := wrap32_mem (y + h)
  have ex : wrap32 (min (max x 0) 256 +
      wrap32 (min (wrap32 (x + w)) 256 - min (max x 0) 256)) =
      min (wrap32 (x + w)) 256 :=
    wrap32_add_wrap32_sub _ _ (by omega) (by omega)
  have ey : wrap32 (min (max y 0) 256 +
      wrap32 (min (wrap32 (y + h)) 256 - min (max y 0) 256)) =
      min (wrap32 (y + h)) 256 :=
    wrap32_add_wrap32_sub _ _ (by omega) (by omega)
  rw [List.eq_nil_iff_forall_not_mem]
  intro p hp
  simp [drawRectPixels] at hp
  rw [ex, ey] at hp
  obtain ⟨j, hj, _, ⟨i, hi, rfl⟩, hpe⟩ := hp
  rw [wrap32_eq_self (x + w) hxl hxu] at hi
  rw [wrap32_eq_self (y + h) hyl hyu] at hj
  omega

/-- C1: every call to `Canvas::drawRect`, with arbitrary (wraparound-modelled)
integer arguments, only touches pixels with coordinates in `[0,256) × [0,256)`;
every byte offset written lies inside the `256 × 256 × 4` backing store; and a
rectangle lying fully outside the buffer (without `int` overflow in `x + w`,
`y + h`) writes nothing at all. -/
theorem c1_drawRect_in_bounds :
    ∀ x y w h : Int,
      (∀ p ∈ drawRectPixels x y w h,
        0 ≤ p.1 ∧ p.1 < 256 ∧ 0 ≤ p.2 ∧ p.2 < 256) ∧
      (∀ o ∈ drawRectOffsets x y w h, 0 ≤ o ∧ o < 256 * 256 * 4) ∧
      (-2 ^ 31 ≤ x + w → x + w < 2 ^ 31 → -2 ^ 31 ≤ y + h → y + h < 2 ^ 31 →
        (256 ≤ x ∨ x + w ≤ 0 ∨ 256 ≤ y ∨ y + h ≤ 0) →
        drawRectPixels x y w h = []) := by
  intro x y w h
  refine ⟨fun p hp => drawRectPixels_bounds x y w h p hp, ?_, ?_⟩
  · intro o ho
    simp only [drawRectOffsets, List.mem_flatMap] at ho
    obtain ⟨p, hp, hmem⟩ := ho
    have hb := drawRectPixels_bounds x y w h p hp
    simp only [List.mem_cons, List.mem_singleton, List.not_mem_nil, or_false] at hmem
    rcases hmem with rfl | rfl | rfl | rfl <;> omega
  · exact drawRectPixels_outside x y w h

/-- Witness for C1 at concrete inputs: a pixel of the rectangle at
`(120, 120, 8, 8)` is inside bounds, and the fully off-screen rectangle
`(300, 0, 10, 10)` enumerates no pixel at all. -/
theorem c1_drawRect_in_bounds_witness :
    (0 ≤ (((124 : Int), (124 : Int))).1 ∧ (((124 : Int), (124 : Int))).1 < 256 ∧
      0 ≤ (((124 : Int), (124 : Int))).2 ∧ (((124 : Int), (124 : Int))).2 < 256) ∧
    drawRectPixels 300 0 10 10 = [] :=
  ⟨(c1_drawRect_in_bounds 120 120 8 8).1 ((124 : Int), (124 : Int)) (by decide),
   (c1_drawRect_in_bounds 300 0 10 10).2.2 (by decide) (by decide) (by decide)
     (by decide) (by decide)⟩

/-- Reading one byte after a `setPixel`: inside the written 4-byte window
the packed color byte is returned, elsewhere the store is unchanged. -/
theorem Canvas.setPixel_data (c : Canvas) (x y : Int) (col : Color) (q : Int) :
    (c.setPixel x y col).data q =
      if (x + y * 256) * 4 ≤ q ∧ q < (x + y * 256) * 4 + 4 then
        col.byte (q - (x + y * 256) * 4)
      else c.data q := by
  dsimp only [Canvas.setPixel, Color.byte]
  split_ifs <;> omega

/-- Reading one byte after a whole `drawRect`-style fold of `setPixel`s of
one fixed color: if some drawn pixel covers the byte (and every covering
pixel writes the same value `v` there), the byte is `v`; otherwise the
store is unchanged. -/
theorem foldl_setPixel_data (col : Color) (q : Int) (v : Nat)
    (L : List (Int × Int)) :
    ∀ c : Canvas,
      (∀ p ∈ L, (p.1 + p.2 * 256) * 4 ≤ q → q < (p.1 + p.2 * 256) * 4 + 4 →
        col.byte (q - (p.1 + p.2 * 256) * 4) = v) →
      (L.foldl (fun acc p => acc.setPixel p.1 p.2 col) c).data q =
        if ∃ p ∈ L, (p.1 + p.2 * 256) * 4 ≤ q ∧ q < (p.1 + p.2 * 256) * 4 + 4
        then v else c.data q := by
  induction L with
  | nil => intro c hv; simp
  | cons a L ih =>
    intro c hv
    rw [List.foldl_cons,
      ih _ fun p hp h1 h2 => hv p (List.mem_cons_of_mem a hp) h1 h2]
    rw [Canvas.setPixel_data]
    by_cases hc : (a.1 + a.2 * 256) * 4 ≤ q ∧ q < (a.1 + a.2 * 256) * 4 + 4
    · by_cases hL : ∃ p ∈ L,
          (p.1 + p.2 * 256) * 4 ≤ q ∧ q < (p.1 + p.2 * 256) * 4 + 4
      · simp [hc, hL]
      · have := hv a (List.mem_cons_self a L) hc.1 hc.2
        simp [hc, hL, this]
    · by_cases hL : ∃ p ∈ L,
          (p.1 + p.2 * 256) * 4 ≤ q ∧ q < (p.1 + p.2 * 256) * 4 + 4
      · simp [hc, hL]
      · simp [hc, hL]

/-- For the full-screen rectangle (the `clear` call) the clamps are the
identity and the loop is the full `256 × 256` grid. -/
theorem drawRectPixels_full :
    drawRectPixels 0 0 256 256 =
      (List.range 256).flatMap fun j =>
        (List.range 256).map fun i => ((i : Int), (j : Int)) := by
  have h1 : wrap32 (min (max (0 : Int) 0) 256 +
      wrap32 (min (wrap32 (0 + 256)) 256 - min (max (0 : Int) 0) 256)) = 256 := by
    decide
  simp only [drawRectPixels, h1]
  norm_num
  rfl

/-- After `Canvas::clear`, every byte of the visible store reads back the
clear color `0,0,0,255`: byte `q` is `255` on the alpha lane
(`q % 4 = 3`) and `0` elsewhere. -/
theorem Canvas.clear_data (c : Canvas) (q : Int) (h0 : 0 ≤ q)
    (h1 : q < 262144) :
    (Canvas.clear c).data q = if q % 4 = 3 then 255 else 0 := by
  have hv : ∀ p ∈ drawRectPixels 0 0 256 256,
      (p.1 + p.2 * 256) * 4 ≤ q → q < (p.1 + p.2 * 256) * 4 + 4 →
      Color.byte ⟨0, 0, 0⟩ (q - (p.1 + p.2 * 256) * 4) =
        if q % 4 = 3 then 255 else 0 := by
    intro p hp hle hlt
    dsimp only [Color.byte]
    split_ifs <;> omega
  have hfold := foldl_setPixel_data ⟨0, 0, 0⟩ q (if q % 4 = 3 then 255 else 0)
    (drawRectPixels 0 0 256 256) c hv
  have hcov : ∃ p ∈ drawRectPixels 0 0 256 256,
      (p.1 + p.2 * 256) * 4 ≤ q ∧ q < (p.1 + p.2 * 256) * 4 + 4 := by
    refine ⟨((q / 4) % 256, (q / 4) / 256), ?_, ?_, ?_⟩
    · rw [drawRectPixels_full]
      simp
      exact ⟨(q / 4 / 256).toNat, by omega, q / 4 % 256,
        ⟨(q / 4 % 256).toNat, by omega, by omega⟩, rfl, by omega⟩
    · dsimp only
      omega
    · dsimp only
      omega
  unfold Canvas.clear Canvas.drawRect
  rw [hfold, if_pos hcov]

/-- `joinComma` over an append of two non-empty lists inserts one comma at
the seam. -/
theorem joinComma_append (xs ys : List (List Char)) (hx : xs ≠ []) (hy : ys ≠ []) :
    joinComma (xs ++ ys) = joinComma xs ++ ',' :: joinComma ys := by
  induction xs with
  | nil => exact absurd rfl hx
  | cons a xs ih =>
    cases xs with
    | nil =>
      cases ys with
      | nil => exact absurd rfl hy
      | cons b ys => simp [joinComma]
    | cons b xs =>
      have h2 := ih (by simp)
      simp only [List.cons_append] at h2
      simp only [List.cons_append, joinComma, List.append_assoc, List.append_eq]
      rw [h2]

/-- Comma-joining the per-byte decimal pattern of a cleared buffer over
`range (4 n)` equals comma-joining `n` copies of `0,0,0,255`. -/
theorem joinComma_clear_pattern (n : Nat) :
    joinComma ((List.range (4 * n)).map fun i =>
        if i % 4 = 3 then '2' :: '5' :: '5' :: [] else '0' :: []) =
      joinComma (List.replicate n
        ('0' :: ',' :: '0' :: ',' :: '0' :: ',' :: '2' :: '5' :: '5' :: [])) := by
  induction n with
  | zero => rfl
  | succ n ih =>
    rw [show 4 * (n + 1) = 4 * n + 4 by ring, List.range_add, List.map_append,
      show List.range 4 = [0, 1, 2, 3] from rfl]
    simp only [List.map_cons, List.map_nil]
    rw [if_neg (by omega), if_neg (by omega), if_neg (by omega), if_pos (by omega)]
    cases n with
    | zero => rfl
    | succ m =>
      rw [List.replicate_succ',
        joinComma_append _ _ (by simp [List.range_eq_nil]) (by simp),
        joinComma_append _ _ (by simp [List.replicate_eq_nil_iff]) (by simp),
        ih]
      rfl

/-- C6: clearing the pixel buffer and then serializing it yields exactly
`[` followed by `256 * 256 * 4 = 262144` comma-separated decimal values and
`]`, in row-major per-pixel `R,G,B,A` order, where every one of the
`65536` pixels contributes `0,0,0,255`. -/
theorem c6_clear_then_serialize (c : Canvas) :
    (Canvas.clear c).toString =
      '[' :: joinComma (List.replicate 65536
        ('0' :: ',' :: '0' :: ',' :: '0' :: ',' :: '2' :: '5' :: '5' :: [])) ++ [']'] := by
  unfold Canvas.toString
  have hmap : (List.range (256 * 256 * 4)).map
      (fun i : Nat => natToChars ((Canvas.clear c).data (i : Nat))) =
      (List.range (4 * 65536)).map
        (fun i => if i % 4 = 3 then '2' :: '5' :: '5' :: [] else '0' :: []) := by
    rw [show 256 * 256 * 4 = 4 * 65536 by norm_num]
    generalize hL : List.range (4 * 65536) = L
    apply List.map_congr_left
    intro i hi
    rw [← hL, List.mem_range] at hi
    rw [Canvas.clear_data c (i : Int) (by omega) (by omega)]
    by_cases h3 : i % 4 = 3
    · rw [if_pos (by omega : ((i : Int) % 4 = 3)), if_pos h3]
      rfl
    · rw [if_neg (by omega : ¬((i : Int) % 4 = 3)), if_neg h3]
      rfl
  rw [hmap, joinComma_clear_pattern]

/-- C2 (code bug): `isKeyDown` indexes the key-state body with no bounds
check (`requestBody[int(keyCode)]`, main.cpp:49), so querying a key at an
index at or beyond the body's length is an out-of-bounds `string_view`
read (undefined behaviour, modelled `none`) rather than "not pressed";
on the empty body every arrow-key query and `Hero::update` fail. -/
theorem c2_short_body_read_fails :
    isKeyDown [] KeyCode.ArrowLeft = none ∧
    isKeyDown [] KeyCode.ArrowRight = none ∧
    Hero.update ⟨128, 128⟩ [] = none ∧
    Hero.update ⟨128, 128⟩ ('1' :: []) = none :=
  ⟨rfl, rfl, rfl, rfl⟩

/-- C3 (code bug): a zero-byte read (peer shutdown) terminates only the
current session and the acceptor keeps serving later connections, but a
negative read hits `buf.resize(readSize)` (main.cpp:193) *before* the
`readSize == -1` check: `resize((size_t)-1)` throws an uncaught
`std::length_error` and the whole process dies, so a read error on one
connection prevents every subsequent connection from being served. -/
theorem c3_read_error_kills_process :
    runReceiveSendLoop initWorld (ReadResult.closed :: []) =
      .ok (initWorld, []) ∧
    runConnectionLoop initWorld
      ((ReadResult.closed :: []) :: (ReadResult.closed :: []) :: []) =
      .ok (initWorld, [] :: [] :: []) ∧
    runReceiveSendLoop initWorld (ReadResult.err :: []) = .error () ∧
    runConnectionLoop initWorld
      ((ReadResult.err :: []) :: (ReadResult.closed :: []) :: []) =
      .error () :=
  ⟨rfl, rfl, rfl, rfl⟩

/-- C7: for every key-state body covering the four arrow keys
(length at least 41): an all-`'0'` body leaves the position exactly
unchanged, a body with `'1'` only at index 39 (ArrowRight) moves `x_` by
exactly +8 and leaves `y_`, and opposing keys (left and right both
pressed) net-cancel. -/
theorem c7_update_displacement (h : Hero) (body : List Char)
    (hlen : 41 ≤ body.length) :
    ((∀ ch ∈ body, ch = '0') → Hero.update h body = some h) ∧
    (body.get? 37 = some '0' → body.get? 38 = some '0' →
      body.get? 39 = some '1' → body.get? 40 = some '0' →
      Hero.update h body = some ⟨h.x_ + 8, h.y_⟩) ∧
    (body.get? 37 = some '1' → body.get? 38 = some '0' →
      body.get? 39 = some '1' → body.get? 40 = some '0' →
      Hero.update h body = some h) := by
  refine ⟨?_, ?_, ?_⟩
  · intro hz
    have g37 : 37 < body.length := by omega
    have g38 : 38 < body.length := by omega
    have g39 : 39 < body.length := by omega
    have g40 : 40 < body.length := by omega
    have h37 : body.get? 37 = some '0' := by
      rw [List.get?_eq_get g37]
      exact congrArg some (hz _ (body.get_mem _ _))
    have h38 : body.get? 38 = some '0' := by
      rw [List.get?_eq_get g38]
      exact congrArg some (hz _ (body.get_mem _ _))
    have h39 : body.get? 39 = some '0' := by
      rw [List.get?_eq_get g39]
      exact congrArg some (hz _ (body.get_mem _ _))
    have h40 : body.get? 40 = some '0' := by
      rw [List.get?_eq_get g40]
      exact congrArg some (hz _ (body.get_mem _ _))
    simp only [List.get?_eq_getElem?] at h37 h38 h39 h40
    simp [Hero.update, isKeyDown, KeyCode.val, h37, h38, h39, h40]
  · intro h37 h38 h39 h40
    simp only [List.get?_eq_getElem?] at h37 h38 h39 h40
    simp [Hero.update, isKeyDown, KeyCode.val, h37, h38, h39, h40]
  · intro h37 h38 h39 h40
    simp only [List.get?_eq_getElem?] at h37 h38 h39 h40
    simp [Hero.update, isKeyDown, KeyCode.val, h37, h38, h39, h40]

/-- Witness for C7: concrete bodies of length 41 around the start
position: the all-zero body, the ArrowRight-only body, and the
left-and-right body. -/
theorem c7_update_displacement_witness :
    41 ≤ (List.replicate 41 '0').length ∧
    Hero.update ⟨128, 128⟩ (List.replicate 41 '0') = some ⟨128, 128⟩ ∧
    Hero.update ⟨128, 128⟩ (List.replicate 39 '0' ++ '1' :: '0' :: []) =
      some ⟨128 + 8, 128⟩ ∧
    Hero.update ⟨128, 128⟩
      (List.replicate 37 '0' ++ '1' :: '0' :: '1' :: '0' :: []) =
      some ⟨128, 128⟩ :=
  ⟨by decide,
   (c7_update_displacement ⟨128, 128⟩ _ (by decide)).1 (by decide),
   (c7_update_displacement ⟨128, 128⟩ _ (by decide)).2.1 (by decide) (by decide)
     (by decide) (by decide),
   (c7_update_displacement ⟨128, 128⟩ _ (by decide)).2.2 (by decide) (by decide)
     (by decide) (by decide)⟩

/-- Splitting the single-literal framing of the spec against the three
concatenated header lines of `createResponseHeader` plus the blank line. -/
theorem createResponse_eq_specResponse (body : List Char) :
    createResponseHeader body.length ++ ("\r\n").toList ++ body =
      specResponse body := by
  have hE : ("HTTP/1.1 200 OK\r\nContent-Type: text/html\r\nContent-Length: ").toList =
      ("HTTP/1.1 200 OK\r\n").toList ++ ("Content-Type: text/html\r\n").toList ++
        ("Content-Length: ").toList := rfl
  have hF : ("\r\n\r\n").toList = ("\r\n").toList ++ ("\r\n").toList := rfl
  rw [specResponse, createResponseHeader, hE, hF]
  simp [List.append_assoc]

/-- C5: whenever `createResponse` yields a response, it is exactly the
byte string `HTTP/1.1 200 OK\r\nContent-Type: text/html\r\nContent-Length: `
`<n>\r\n\r\n<body>` where `<n>` is the decimal byte length of the response
body; in particular the status line is always `200 OK` and no other
header is ever produced. -/
theorem c5_response_framing (w : World) (request : List Char) (w' : World)
    (response : List Char)
    (hr : createResponse w request = some (w', response)) :
    ∃ body, createResponseBody w request = some (w', body) ∧
      response = specResponse body := by
  unfold createResponse at hr
  cases hb : createResponseBody w request with
  | none => rw [hb] at hr; simp at hr
  | some p =>
    rw [hb] at hr
    simp only [Option.map_some', Option.some.injEq, Prod.mk.injEq] at hr
    obtain ⟨hw, hresp⟩ := hr
    refine ⟨p.2, ?_, ?_⟩
    · rw [← hw]
    · rw [← hresp, createResponse_eq_specResponse]

/-- Witness for C5: an unrecognized one-byte request produces the framing
with an empty body. -/
theorem c5_response_framing_witness :
    createResponse initWorld (("X").toList) = some (initWorld, specResponse []) ∧
    ∃ body, createResponseBody initWorld (("X").toList) = some (initWorld, body) ∧
      specResponse [] = specResponse body :=
  ⟨rfl, c5_response_framing initWorld (("X").toList) initWorld (specResponse []) rfl⟩

/-- C4: dispatch on the request line, in source order: a `GET / ` prefix
serves `baseHTML` verbatim; otherwise a `POST / ` prefix advances the
simulation and serves the serialized frame of the updated world; any
other request line gives an empty body, and the emitted response is still
the syntactically valid 200 response with `Content-Length: 0`. -/
theorem c4_dispatch (w : World) (request : List Char) :
    (("GET / ").toList.isPrefixOf (getRequestLine request) = true →
      createResponseBody w request = some (w, baseHTML)) ∧
    (("GET / ").toList.isPrefixOf (getRequestLine request) = false →
      ("POST / ").toList.isPrefixOf (getRequestLine request) = true →
      createResponseBody w request = updateWorld w (getRequestBody request) ∧
      ∀ w' frame, updateWorld w (getRequestBody request) = some (w', frame) →
        frame = w'.canvas.toString) ∧
    (("GET / ").toList.isPrefixOf (getRequestLine request) = false →
      ("POST / ").toList.isPrefixOf (getRequestLine request) = false →
      createResponseBody w request = some (w, []) ∧
      createResponse w request = some (w,
        ("HTTP/1.1 200 OK\r\nContent-Type: text/html\r\nContent-Length: 0\r\n\r\n").toList)) := by
  refine ⟨?_, ?_, ?_⟩
  · intro hG
    simp only [createResponseBody, hG]
    simp
  · intro hG hP
    refine ⟨by simp only [createResponseBody, hG, hP]; simp, ?_⟩
    intro w' frame hu
    cases hupd : w.hero.update (getRequestBody request) with
    | none => simp [updateWorld, hupd] at hu
    | some hero' =>
      simp only [updateWorld, hupd, Option.map_some', Option.some.injEq,
        Prod.mk.injEq] at hu
      obtain ⟨hw, hframe⟩ := hu
      rw [← hframe, ← hw]
  · intro hG hP
    have h1 : createResponseBody w request = some (w, []) := by
      simp only [createResponseBody, hG, hP]
      simp
    refine ⟨h1, ?_⟩
    simp only [createResponse, h1, Option.map_some']
    rfl

/-- Witness for C4: the three dispatch branches at concrete requests. -/
theorem c4_dispatch_witness :
    createResponseBody initWorld (("GET / HTTP/1.1\r\n\r\n").toList) =
      some (initWorld, baseHTML) ∧
    createResponseBody initWorld (("POST / HTTP/1.1\r\n\r\n").toList) =
      updateWorld initWorld (getRequestBody (("POST / HTTP/1.1\r\n\r\n").toList)) ∧
    createResponse initWorld (("DELETE / HTTP/1.1\r\n\r\n").toList) =
      some (initWorld,
        ("HTTP/1.1 200 OK\r\nContent-Type: text/html\r\nContent-Length: 0\r\n\r\n").toList) :=
  ⟨(c4_dispatch initWorld _).1 (by decide),
   ((c4_dispatch initWorld _).2.1 (by decide) (by decide)).1,
   ((c4_dispatch initWorld _).2.2 (by decide) (by decide)).2⟩

/-- C8 counterexample: the request `POST / x` has a request line beginning
with `POST` but contains no CRLF-CRLF separator, so "the bytes after the
first CRLF-CRLF" are none; yet `getRequestBody` returns `T / x`, because
`request.find("\r\n\r\n")` is `npos` and `npos + 4` wraps to `3` in
`size_t`, making the code take `substr(3)`. -/
theorem c8_counterexample :
    getRequestBody (("POST / x").toList) = ("T / x").toList ∧
    getRequestBodySpec (("POST / x").toList) = [] ∧
    getRequestBody (("POST / x").toList) ≠
      getRequestBodySpec (("POST / x").toList) :=
  ⟨rfl, rfl, by decide⟩

/-- C8 (amended): for a request whose line does not begin with `POST` the
extracted body is empty; for a `POST` request containing a CRLF-CRLF the
body is exactly the bytes after the first CRLF-CRLF; and for a `POST`
request with no CRLF-CRLF the body is the request bytes from offset 3 on
(`npos + 4` wraparound), not the empty sequence. -/
theorem c8_request_body_extraction (request : List Char) :
    (("POST").toList.isPrefixOf (getRequestLine request) = false →
      getRequestBody request = []) ∧
    (∀ n, ("POST").toList.isPrefixOf (getRequestLine request) = true →
      findSub (("\r\n\r\n").toList) request = some n →
      getRequestBody request = request.drop (n + 4)) ∧
    (("POST").toList.isPrefixOf (getRequestLine request) = true →
      findSub (("\r\n\r\n").toList) request = none →
      getRequestBody request = request.drop 3) := by
  refine ⟨?_, ?_, ?_⟩
  · intro hP
    simp only [getRequestBody, hP]
    simp
  · intro n hP hf
    simp only [getRequestBody, hP, hf]
    simp
  · intro hP hf
    simp only [getRequestBody, hP, hf]
    simp

/-- Witness for C8 (amended) at the three branches. -/
theorem c8_request_body_extraction_witness :
    getRequestBody (("GET / HTTP/1.1\r\n\r\n").toList) = [] ∧
    getRequestBody (("POST / HTTP/1.1\r\nH: x\r\n\r\nBODY").toList) =
      (("POST / HTTP/1.1\r\nH: x\r\n\r\nBODY").toList).drop 25 ∧
    getRequestBody (("POST / y").toList) = (("POST / y").toList).drop 3 :=
  ⟨(c8_request_body_extraction _).1 (by decide),
   (c8_request_body_extraction _).2.1 21 (by decide) (by decide),
   (c8_request_body_extraction _).2.2 (by decide) (by decide)⟩

/-- Deadline and send-instant of the `n`-th response of the timed loop:
the deadline advances by exactly 100 ms per response from the initial
`nextSend`, independently of the event durations, and each send happens
no earlier than its deadline. -/
theorem runTimedLoop_getD (events : List (Nat × ReadResult)) :
    ∀ (now nextSend n : Nat), n < (runTimedLoop now nextSend events).length →
      ((runTimedLoop now nextSend events).getD n (0, 0)).1 = nextSend + 100 * n ∧
      ((runTimedLoop now nextSend events).getD n (0, 0)).1 ≤
        ((runTimedLoop now nextSend events).getD n (0, 0)).2 := by
  induction events with
  | nil =>
    intro now s n hn
    simp [runTimedLoop] at hn
  | cons e rest ih =>
    obtain ⟨dur, r⟩ := e
    intro now s n hn
    cases r with
    | err => simp [runTimedLoop] at hn
    | closed => simp [runTimedLoop] at hn
    | data request =>
      cases n with
      | zero =>
        simp [runTimedLoop]
      | succ m =>
        simp only [runTimedLoop, List.getD_cons_succ, List.length_cons] at hn ⊢
        have hrec := ih (max (now + dur) s) (s + 100) m (by omega)
        refine ⟨by omega, hrec.2⟩

/-- C9: with the loop started at instant `t0` (when `nextSendTimePoint`
is initialized to `now()`), the `n`-th response is sent no earlier than
the `n`-th deadline, and the deadlines are exactly `t0 + 100 n` ms — each
is the previous plus the fixed 100 ms interval, never recomputed from the
current time, whatever the per-iteration durations are. -/
theorem c9_fixed_cadence (t0 : Nat) (events : List (Nat × ReadResult))
    (n : Nat) (hn : n < (runTimedLoop t0 t0 events).length) :
    ((runTimedLoop t0 t0 events).getD n (0, 0)).1 = t0 + 100 * n ∧
    ((runTimedLoop t0 t0 events).getD n (0, 0)).1 ≤
      ((runTimedLoop t0 t0 events).getD n (0, 0)).2 :=
  runTimedLoop_getD events t0 t0 n hn

/-- Witness for C9: two requests, the second taking 200 ms to process, at
`t0 = 1000`: the second deadline is still `1000 + 100`. -/
theorem c9_fixed_cadence_witness :
    1 < (runTimedLoop 1000 1000
      ((5, ReadResult.data []) :: (200, ReadResult.data []) :: [])).length ∧
    ((runTimedLoop 1000 1000
      ((5, ReadResult.data []) :: (200, ReadResult.data []) :: [])).getD 1
        (0, 0)).1 = 1000 + 100 * 1 ∧
    ((runTimedLoop 1000 1000
      ((5, ReadResult.data []) :: (200, ReadResult.data []) :: [])).getD 1
        (0, 0)).1 ≤
      ((runTimedLoop 1000 1000
        ((5, ReadResult.data []) :: (200, ReadResult.data []) :: [])).getD 1
          (0, 0)).2 :=
  ⟨by decide,
   (c9_fixed_cadence 1000 ((5, ReadResult.data []) :: (200, ReadResult.data []) :: [])
     1 (by decide)).1,
   (c9_fixed_cadence 1000 ((5, ReadResult.data []) :: (200, ReadResult.data []) :: [])
     1 (by decide)).2⟩


/-- C10: at process start the hero sits exactly at the buffer center,
`x_ = 0.5 * 256 = 128` and `y_ = 128`; the draw call for that position is
`drawRect(124, 124, 8, 8)`, whose pixel set is exactly the 8 by 8 square
`[124, 132) × [124, 132)`, i.e. the square centered at `(128, 128)`. -/
theorem c10_initial_position :
    initHero.x_ = 128 ∧ initHero.y_ = 128 ∧
    Hero.drawArgs initHero = (124, 124, 8, 8) ∧
    ∀ p : Int × Int, p ∈ drawRectPixels 124 124 8 8 ↔
      (124 ≤ p.1 ∧ p.1 < 132 ∧ 124 ≤ p.2 ∧ p.2 < 132) := by
  have hcenter : initHero.x_ = 128 ∧ initHero.y_ = 128 := by
    constructor <;> norm_num [initHero]
  have h8 : wrap32 (124 + wrap32 (wrap32 132 ⊓ 256 - 124)) - 124 = 8 := by
    decide
  refine ⟨hcenter.1, hcenter.2, ?_, ?_⟩
  · have h124 : truncQ ((2⁻¹ : ℚ) * 256 - 4) = 124 := by
      rw [truncQ, if_pos (by norm_num)]
      rw [show (2⁻¹ : ℚ) * 256 - 4 = ((124 : ℤ) : ℚ) by norm_num]
      exact Int.floor_intCast 124
    have htr8 : truncQ ((2 : ℚ) * 4) = 8 := by
      rw [truncQ, if_pos (by norm_num)]
      rw [show (2 : ℚ) * 4 = ((8 : ℤ) : ℚ) by norm_num]
      exact Int.floor_intCast 8
    simp [Hero.drawArgs, initHero, h124, htr8]
  · intro p
    constructor
    · intro hp
      simp [drawRectPixels] at hp
      rw [h8] at hp
      obtain ⟨j, hj, _, ⟨i, hi, rfl⟩, hpe⟩ := hp
      cases hpe
      dsimp only
      refine ⟨by omega, by omega, by omega, by omega⟩
    · intro hb
      obtain ⟨p1, p2⟩ := p
      replace hb : 124 ≤ p1 ∧ p1 < 132 ∧ 124 ≤ p2 ∧ p2 < 132 := hb
      simp [drawRectPixels]
      rw [h8]
      refine ⟨(p2 - 124).toNat, by omega, p1 - 124,
        ⟨(p1 - 124).toNat, by omega, by omega⟩, ?_⟩
      constructor <;> omega
